import Mathlib

/-! QmitkDataStorageListModel

A shallow embedding of `Modules/QtWidgets/src/QmitkDataStorageListModel.cpp`.

The list model mirrors the nodes of a data storage into a Qt list.  The C++
object talks to three outside parties, each of which is made explicit in the
state below:

* the data storage (its nodes and its two listener lists),
* the `itk::Object` observer tables of the data storage and of the data nodes,
* the Qt base class, whose announcements (`beginInsertRows`, `dataChanged`, ...)
  are recorded in order in `emitted`.

Every member function becomes a function on `State`.  Container lengths are
natural numbers; rows handed to Qt are integers, as in the source.
-/

namespace QmitkDataStorageListModel

/-! ## Data model -/

/-- Address of a live `mitk::DataNode`. -/
abbrev DataNode := Nat

/-- Address of a live `mitk::DataStorage`. -/
abbrev DataStorage := Nat

/-- An `itk::Object` seen by the model: a data node, a data storage, or some
other object (only ever met as the `caller` of an observer callback). -/
inductive Object where
  | node (n : DataNode)
  | storage (ds : DataStorage)
  | other (a : Nat)
  deriving DecidableEq, Repr

/-- The part of `mitk::NodePredicateBase` the model uses. -/
structure NodePredicateBase where
  CheckNode : DataNode → Bool

/-- The member functions of the model that are handed out as callbacks. -/
inductive Callback where
  | OnDataStorageNodeAdded
  | OnDataStorageNodeRemoved
  | OnDataNodeModified
  | OnDataStorageDeleted
  deriving DecidableEq, Repr

/-- The two ITK event kinds the model subscribes to. -/
inductive EventObject where
  | ModifiedEvent
  | DeleteEvent
  deriving DecidableEq, Repr

/-- One entry of an `itk::Object`'s observer table. -/
structure Observer where
  m_Tag : Nat
  m_Event : EventObject
  m_Command : Callback
  deriving DecidableEq, Repr

/-- A `QModelIndex`: row, column and whether it belongs to a model. -/
structure QModelIndex where
  r : Int
  c : Int
  m : Bool
  deriving DecidableEq, Repr

/-- What the model announces to Qt, in the order of the calls. -/
inductive Signal where
  | beginResetModel
  | endResetModel
  | beginInsertRows (first last : Int)
  | endInsertRows
  | beginRemoveRows (first last : Int)
  | endRemoveRows
  | dataChanged (topLeft bottomRight : QModelIndex)
  deriving DecidableEq, Repr

/-- The members of the model together with the outside world it acts on. -/
structure State where
  /- members of QmitkDataStorageListModel -/
  m_NodePredicate : Option NodePredicateBase
  m_DataStorage : Option DataStorage
  m_DataStorageDeleteObserverTag : Nat
  m_NodesAndObserverTags : List (DataNode × Nat)
  m_BlockEvents : Bool
  /- the data storages -/
  storageNodes : DataStorage → List DataNode
  AddNodeEvent : DataStorage → List Callback
  RemoveNodeEvent : DataStorage → List Callback
  /- the observer table and tag counter of every itk::Object -/
  m_Observers : Object → List Observer
  m_Count : Object → Nat
  /- announcements made to Qt so far -/
  emitted : List Signal

/-! ## The outside world -/

/-- Pointwise update of a table indexed by addresses or objects. -/
def setAt {α β : Type} [DecidableEq α] (f : α → β) (a : α) (v : β) : α → β :=
  fun x => if x = a then v else f x

/-- Modelled from the spec: `mitk::DataStorage::GetAll` is not part of the
sources; the data storage is "an external hierarchical container of scene
objects", and its nodes are read in the storage's order. -/
def GetAll (s : State) (ds : DataStorage) : List DataNode :=
  s.storageNodes ds

/-- Modelled from the spec: `mitk::DataStorage::GetSubset` is not part of the
sources; a node predicate is "a filter object deciding whether a given node
belongs in a derived view", so the subset is the nodes of the storage that
the predicate accepts, in the storage's order. -/
def GetSubset (s : State) (ds : DataStorage) (pred : NodePredicateBase) : List DataNode :=
  (GetAll s ds).filter pred.CheckNode

/-- Modelled from the spec: `mitk::Message::AddListener` is not part of the
sources; a delegate that is already registered is not registered twice. -/
def AddListener (listeners : List Callback) (d : Callback) : List Callback :=
  if d ∈ listeners then listeners else listeners ++ [d]

/-- Modelled from the spec: `mitk::Message::RemoveListener` is not part of the
sources; the first registered delegate equal to the given one is dropped. -/
def RemoveListener (listeners : List Callback) (d : Callback) : List Callback :=
  listeners.erase d

/-- Modelled from the spec: `itk::Object::AddObserver` is not part of the
sources; the object appends the observer under a fresh tag, taken from its
own counter, and returns the tag. -/
def AddObserver (s : State) (o : Object) (ev : EventObject) (cmd : Callback) : State × Nat :=
  let tag := s.m_Count o
  ({ s with
      m_Observers := setAt s.m_Observers o (s.m_Observers o ++ [⟨tag, ev, cmd⟩]),
      m_Count := setAt s.m_Count o (tag + 1) },
   tag)

/-- The observer table without its first entry carrying `tag`. -/
def dropTag (tag : Nat) : List Observer → List Observer
  | [] => []
  | ob :: rest => if ob.m_Tag = tag then rest else ob :: dropTag tag rest

/-- Modelled from the spec: `itk::Object::RemoveObserver` is not part of the
sources; the object drops the observer it holds under `tag`, if any, and no
other object is touched. -/
def RemoveObserver (s : State) (o : Object) (tag : Nat) : State :=
  { s with m_Observers := setAt s.m_Observers o (dropTag tag (s.m_Observers o)) }

/-- The invalid index `QModelIndex()`. -/
def QModelIndex.invalid : QModelIndex := ⟨-1, -1, false⟩

/-- Qt's `QModelIndex::isValid`. -/
def QModelIndex.isValid (i : QModelIndex) : Bool :=
  decide (0 ≤ i.r) && decide (0 ≤ i.c) && i.m

/-! ## Member functions -/

/-- Source: `rowCount` returns `m_NodesAndObserverTags.size()`. -/
def rowCount (s : State) : Int :=
  s.m_NodesAndObserverTags.length

/-- Qt's `QAbstractItemModel::hasIndex` for a top-level position of a list
model (one column). -/
def hasIndex (s : State) (row column : Int) : Bool :=
  if row < 0 ∨ column < 0 then false
  else decide (row < rowCount s) && decide (column < 1)

/-- Qt's `QAbstractListModel::index(row)`, column 0, no parent. -/
def index (s : State) (row : Int) : QModelIndex :=
  if hasIndex s row 0 then ⟨row, 0, true⟩ else QModelIndex.invalid

/-- Source: `GetDataNodes` copies the first component of every entry. -/
def GetDataNodes (s : State) : List DataNode :=
  s.m_NodesAndObserverTags.map (fun e => e.1)

/-- Source: `GetDataStorage`. -/
def GetDataStorage (s : State) : Option DataStorage :=
  s.m_DataStorage

/-- Source: `GetPredicate`. -/
def GetPredicate (s : State) : Option NodePredicateBase :=
  s.m_NodePredicate

/-- Source: `AddNodeToInternalList`.  The observer is added on
`m_DataStorage`, as the source does, and the tag is stored beside the node. -/
def AddNodeToInternalList (s : State) (node : DataNode) : State :=
  match s.m_DataStorage with
  | some ds =>
    let r := AddObserver s (Object.storage ds) EventObject.ModifiedEvent Callback.OnDataNodeModified
    { r.1 with m_NodesAndObserverTags := r.1.m_NodesAndObserverTags ++ [(node, r.2)] }
  | none => s

/-- Source: `ClearInternalNodeList`: every stored tag is removed from the
node it is stored beside, then the list is cleared. -/
def ClearInternalNodeList (s : State) : State :=
  let s1 := s.m_NodesAndObserverTags.foldl
    (fun st iter => RemoveObserver st (Object.node iter.1) iter.2) s
  { s1 with m_NodesAndObserverTags := [] }

/-- The iterator loop of `RemoveNodeFromInternalList`: the tag of the first
entry holding `node` and the list after `erase(iter)`. -/
def RemoveNodeFromInternalList.loop (node : DataNode) :
    List (DataNode × Nat) → Option (Nat × List (DataNode × Nat))
  | [] => none
  | iter :: rest =>
    if iter.1 = node then some (iter.2, rest)
    else
      match RemoveNodeFromInternalList.loop node rest with
      | some (tag, rest') => some (tag, iter :: rest')
      | none => none

/-- Source: `RemoveNodeFromInternalList`. -/
def RemoveNodeFromInternalList (s : State) (node : DataNode) : State :=
  match RemoveNodeFromInternalList.loop node s.m_NodesAndObserverTags with
  | some (tag, rest) =>
    let s1 := RemoveObserver s (Object.node node) tag
    { s1 with m_NodesAndObserverTags := rest }
  | none => s

/-- Source: `reset`. -/
def reset (s : State) : State :=
  match s.m_DataStorage with
  | none => s
  | some ds =>
    let modelNodes :=
      match s.m_NodePredicate with
      | some pred => GetSubset s ds pred
      | none => GetAll s ds
    let s1 := ClearInternalNodeList s
    modelNodes.foldl AddNodeToInternalList s1

/-- Source: `SetPredicate`. -/
def SetPredicate (s : State) (pred : Option NodePredicateBase) : State :=
  let s1 := { s with m_NodePredicate := pred }
  let s2 := { s1 with emitted := s1.emitted ++ [Signal.beginResetModel] }
  let s3 := reset s2
  { s3 with emitted := s3.emitted ++ [Signal.endResetModel] }

/-- Source: `SetDataStorage`. -/
def SetDataStorage (s : State) (dataStorage : Option DataStorage) : State :=
  if s.m_DataStorage = dataStorage then s
  else
    -- remove old listeners
    let s1 :=
      match s.m_DataStorage with
      | some old =>
        let a := { s with
          AddNodeEvent := setAt s.AddNodeEvent old
            (RemoveListener (s.AddNodeEvent old) Callback.OnDataStorageNodeAdded) }
        let b := { a with
          RemoveNodeEvent := setAt a.RemoveNodeEvent old
            (RemoveListener (a.RemoveNodeEvent old) Callback.OnDataStorageNodeRemoved) }
        let c := RemoveObserver b (Object.storage old) b.m_DataStorageDeleteObserverTag
        { c with m_DataStorageDeleteObserverTag := 0 }
      | none => s
    let s2 := { s1 with m_DataStorage := dataStorage }
    let s3 :=
      match s2.m_DataStorage with
      | some ds =>
        let a := { s2 with
          AddNodeEvent := setAt s2.AddNodeEvent ds
            (AddListener (s2.AddNodeEvent ds) Callback.OnDataStorageNodeAdded) }
        let b := { a with
          RemoveNodeEvent := setAt a.RemoveNodeEvent ds
            (AddListener (a.RemoveNodeEvent ds) Callback.OnDataStorageNodeRemoved) }
        let r := AddObserver b (Object.storage ds) EventObject.DeleteEvent
          Callback.OnDataStorageDeleted
        { r.1 with m_DataStorageDeleteObserverTag := r.2 }
      | none => s2
    -- reset/rebuild model
    reset s3

/-- Source: `OnDataStorageNodeAdded`. -/
def OnDataStorageNodeAdded (s : State) (node : DataNode) : State :=
  if !s.m_BlockEvents then
    let s1 := { s with m_BlockEvents := true }
    let addNode : Bool :=
      match s1.m_NodePredicate with
      | some pred => if !pred.CheckNode node then false else true
      | none => true
    let s2 :=
      if addNode then
        let newIndex : Int := s1.m_NodesAndObserverTags.length
        let a := { s1 with emitted := s1.emitted ++ [Signal.beginInsertRows newIndex newIndex] }
        let b := AddNodeToInternalList a node
        { b with emitted := b.emitted ++ [Signal.endInsertRows] }
      else s1
    { s2 with m_BlockEvents := false }
  else s

/-- The iterator loop of `OnDataStorageNodeRemoved`: the row of the first
entry holding `node`, counted from `row`. -/
def OnDataStorageNodeRemoved.loop (node : DataNode) :
    List (DataNode × Nat) → Int → Option Int
  | [], _ => none
  | iter :: rest, row =>
    if iter.1 = node then some row
    else OnDataStorageNodeRemoved.loop node rest (row + 1)

/-- Source: `OnDataStorageNodeRemoved`.  The final `m_BlockEvents = false`
stands after the `if`, as in the source. -/
def OnDataStorageNodeRemoved (s : State) (node : DataNode) : State :=
  let s3 :=
    if !s.m_BlockEvents then
      let s1 := { s with m_BlockEvents := true }
      match OnDataStorageNodeRemoved.loop node s1.m_NodesAndObserverTags 0 with
      | some row =>
        -- node found, remove it
        let a := { s1 with emitted := s1.emitted ++ [Signal.beginRemoveRows row row] }
        let b := RemoveNodeFromInternalList a node
        { b with emitted := b.emitted ++ [Signal.endRemoveRows] }
      | none => s1
    else s
  { s3 with m_BlockEvents := false }

/-- The iterator loop of `getIndex`: the row of the first entry holding
`node`, counted from `row`. -/
def getIndex.loop (node : DataNode) : List (DataNode × Nat) → Int → Option Int
  | [], _ => none
  | iter :: rest, row =>
    if iter.1 = node then some row
    else getIndex.loop node rest (row + 1)

/-- Source: `getIndex`. -/
def getIndex (s : State) (node : DataNode) : QModelIndex :=
  match getIndex.loop node s.m_NodesAndObserverTags 0 with
  | some row => index s row
  | none => QModelIndex.invalid

/-- Source: `getNode`.  `none` is the null pointer; `at` throws
`std::out_of_range` for a row outside the list (a valid index never has a
negative row, so the inner `else` is only there to make the row a position). -/
def getNode (s : State) (i : QModelIndex) : Except String (Option DataNode) :=
  if i.isValid then
    if 0 ≤ i.r then
      match s.m_NodesAndObserverTags[i.r.toNat]? with
      | some e => Except.ok (some e.1)
      | none => Except.error "out_of_range"
    else Except.error "out_of_range"
  else Except.ok none

/-- The `dynamic_cast<const mitk::DataNode*>(caller)` of `OnDataNodeModified`. -/
def dynamic_cast_DataNode (caller : Option Object) : Option DataNode :=
  match caller with
  | some (Object.node n) => some n
  | _ => none

/-- Source: `OnDataNodeModified`. -/
def OnDataNodeModified (s : State) (caller : Option Object) : State :=
  if s.m_BlockEvents then s
  else
    match dynamic_cast_DataNode caller with
    | some modifiedNode =>
      let changedIndex := getIndex s modifiedNode
      if changedIndex.isValid then
        { s with emitted := s.emitted ++ [Signal.dataChanged changedIndex changedIndex] }
      else s
    | none => s

/-- Source: `OnDataStorageDeleted`. -/
def OnDataStorageDeleted (s : State) (_caller : Option Object) : State :=
  if s.m_BlockEvents then s
  else SetDataStorage s none

/-- Source: the constructor, run in a world whose data storages hold
`storageNodes` and in which no listener or observer is registered yet.  The
source leaves `m_DataStorageDeleteObserverTag` uninitialised; it is 0 here. -/
def construct (storageNodes : DataStorage → List DataNode)
    (dataStorage : Option DataStorage) (pred : Option NodePredicateBase) : State :=
  let s0 : State :=
    { m_NodePredicate := none
      m_DataStorage := none
      m_DataStorageDeleteObserverTag := 0
      m_NodesAndObserverTags := []
      m_BlockEvents := false
      storageNodes := storageNodes
      AddNodeEvent := fun _ => []
      RemoveNodeEvent := fun _ => []
      m_Observers := fun _ => []
      m_Count := fun _ => 0
      emitted := [] }
  SetDataStorage (SetPredicate s0 pred) dataStorage

/-! ## A concrete world -/

/-- Two data storages: storage 1 holds the nodes 7, 8, 9 and storage 2 holds
the node 20. -/
def exampleNodes : DataStorage → List DataNode :=
  fun ds => if ds = 1 then [7, 8, 9] else if ds = 2 then [20] else []

/-- A predicate accepting the nodes with an odd address. -/
def oddNodes : NodePredicateBase :=
  ⟨fun n => n % 2 == 1⟩

/-- The model as the constructor leaves it over storage 1 with no predicate. -/
def exampleModel : State :=
  construct exampleNodes (some 1) none

/-- The same model met while one of its handlers is running. -/
def exampleBlocked : State :=
  { exampleModel with m_BlockEvents := true }

/-- The same model filtering storage 1 by `oddNodes`. -/
def exampleFiltered : State :=
  construct exampleNodes (some 1) (some oddNodes)

/-! ## Frame lemmas for the internal list operations -/

/-- The members and tables that the observer bookkeeping never touches. -/
def sameCore (t s : State) : Prop :=
  t.m_DataStorage = s.m_DataStorage ∧ t.m_NodePredicate = s.m_NodePredicate ∧
  t.storageNodes = s.storageNodes ∧ t.emitted = s.emitted ∧
  t.m_BlockEvents = s.m_BlockEvents

theorem sameCore_refl (s : State) : sameCore s s :=
  ⟨rfl, rfl, rfl, rfl, rfl⟩

theorem sameCore_trans {a b c : State} (h1 : sameCore a b) (h2 : sameCore b c) :
    sameCore a c := by
  obtain ⟨p1, p2, p3, p4, p5⟩ := h1
  obtain ⟨q1, q2, q3, q4, q5⟩ := h2
  exact ⟨p1.trans q1, p2.trans q2, p3.trans q3, p4.trans q4, p5.trans q5⟩

theorem RemoveObserver_sameCore (s : State) (o : Object) (tag : Nat) :
    sameCore (RemoveObserver s o tag) s ∧
    (RemoveObserver s o tag).m_NodesAndObserverTags = s.m_NodesAndObserverTags :=
  ⟨⟨rfl, rfl, rfl, rfl, rfl⟩, rfl⟩

theorem removeAll_sameCore (l : List (DataNode × Nat)) (s : State) :
    sameCore (l.foldl (fun st iter => RemoveObserver st (Object.node iter.1) iter.2) s) s := by
  induction l generalizing s with
  | nil => exact sameCore_refl s
  | cons e rest ih =>
    simp only [List.foldl_cons]
    exact sameCore_trans (ih _) (RemoveObserver_sameCore s _ _).1

theorem ClearInternalNodeList_spec (s : State) :
    sameCore (ClearInternalNodeList s) s ∧
    (ClearInternalNodeList s).m_NodesAndObserverTags = [] := by
  refine ⟨?_, rfl⟩
  have h := removeAll_sameCore s.m_NodesAndObserverTags s
  obtain ⟨p1, p2, p3, p4, p5⟩ := h
  exact ⟨p1, p2, p3, p4, p5⟩

theorem AddNodeToInternalList_spec (s : State) (ds : DataStorage) (node : DataNode)
    (h : s.m_DataStorage = some ds) :
    sameCore (AddNodeToInternalList s node) s ∧
    (AddNodeToInternalList s node).m_NodesAndObserverTags =
      s.m_NodesAndObserverTags ++ [(node, s.m_Count (Object.storage ds))] := by
  unfold AddNodeToInternalList
  rw [h]
  exact ⟨⟨rfl, rfl, rfl, rfl, rfl⟩, rfl⟩

theorem addAll_spec (nodes : List DataNode) (s : State) (ds : DataStorage)
    (h : s.m_DataStorage = some ds) :
    sameCore (nodes.foldl AddNodeToInternalList s) s ∧
    GetDataNodes (nodes.foldl AddNodeToInternalList s) = GetDataNodes s ++ nodes := by
  induction nodes generalizing s with
  | nil => exact ⟨sameCore_refl s, by simp⟩
  | cons n rest ih =>
    simp only [List.foldl_cons]
    obtain ⟨hc, hl⟩ := AddNodeToInternalList_spec s ds n h
    obtain ⟨ic, il⟩ := ih (AddNodeToInternalList s n) (hc.1.trans h)
    refine ⟨sameCore_trans ic hc, ?_⟩
    rw [il]
    simp [GetDataNodes, hl]

theorem reset_spec (s : State) (ds : DataStorage) (h : s.m_DataStorage = some ds) :
    sameCore (reset s) s ∧
    GetDataNodes (reset s) =
      (match s.m_NodePredicate with
        | some pred => (s.storageNodes ds).filter pred.CheckNode
        | none => s.storageNodes ds) := by
  obtain ⟨cc, cl⟩ := ClearInternalNodeList_spec s
  have hds : (ClearInternalNodeList s).m_DataStorage = some ds := cc.1.trans h
  unfold reset
  rw [h]
  simp only
  obtain ⟨ac, al⟩ := addAll_spec
    (match s.m_NodePredicate with
      | some pred => GetSubset s ds pred
      | none => GetAll s ds) (ClearInternalNodeList s) ds hds
  refine ⟨sameCore_trans ac cc, ?_⟩
  rw [al]
  simp only [GetDataNodes, cl, List.map_nil, List.nil_append]
  cases s.m_NodePredicate <;> rfl

/-! ## Rebuilding the list: `SetPredicate` and `SetDataStorage` -/

/-- C1: with a data storage set, `SetPredicate pred` stores `pred` and makes
the node list exactly the storage's nodes accepted by `pred`, in the storage's
order (all nodes when `pred` is null), whatever the list held before. -/
theorem SetPredicate_rebuilds (s : State) (ds : DataStorage)
    (pred : Option NodePredicateBase) (hds : GetDataStorage s = some ds) :
    GetPredicate (SetPredicate s pred) = pred ∧
    (∀ p, pred = some p →
      GetDataNodes (SetPredicate s pred) = (GetAll s ds).filter p.CheckNode) ∧
    (pred = none → GetDataNodes (SetPredicate s pred) = GetAll s ds) := by
  have hr := reset_spec
    { s with m_NodePredicate := pred, emitted := s.emitted ++ [Signal.beginResetModel] } ds hds
  obtain ⟨hc, hl⟩ := hr
  refine ⟨hc.2.1, ?_, ?_⟩
  · intro p hp
    subst hp
    exact hl
  · intro hp
    subst hp
    exact hl

/-- The state on which `SetDataStorage` runs `reset` when the storage changes
to a non-null one: it points at the new storage and keeps the predicate, the
storage contents, the guard flag and the announcements. -/
theorem SetDataStorage_some_eq_reset (s : State) (ds : DataStorage)
    (hne : s.m_DataStorage ≠ some ds) :
    ∃ s3 : State, SetDataStorage s (some ds) = reset s3 ∧ s3.m_DataStorage = some ds ∧
      s3.m_NodePredicate = s.m_NodePredicate ∧ s3.storageNodes = s.storageNodes ∧
      s3.emitted = s.emitted ∧ s3.m_BlockEvents = s.m_BlockEvents := by
  unfold SetDataStorage
  rw [if_neg hne]
  cases s.m_DataStorage <;> exact ⟨_, rfl, rfl, rfl, rfl, rfl, rfl⟩

/-- C2: for a non-null data storage `ds` other than the current one,
`SetDataStorage ds` stores `ds` and rebuilds the model: the node list is
exactly the nodes of `ds` accepted by the current predicate (all nodes of `ds`
when the predicate is null), so every listed node is a node of `ds`. -/
theorem SetDataStorage_rebuilds (s : State) (ds : DataStorage)
    (hne : GetDataStorage s ≠ some ds) :
    GetDataStorage (SetDataStorage s (some ds)) = some ds ∧
    GetPredicate (SetDataStorage s (some ds)) = GetPredicate s ∧
    (∀ p, GetPredicate s = some p →
      GetDataNodes (SetDataStorage s (some ds)) = (GetAll s ds).filter p.CheckNode) ∧
    (GetPredicate s = none → GetDataNodes (SetDataStorage s (some ds)) = GetAll s ds) ∧
    (∀ n, n ∈ GetDataNodes (SetDataStorage s (some ds)) → n ∈ GetAll s ds) := by
  obtain ⟨s3, he, h3, hp, hn, -, -⟩ := SetDataStorage_some_eq_reset s ds hne
  obtain ⟨hc, hl⟩ := reset_spec s3 ds h3
  rw [he]
  rw [hp, hn] at hl
  have hA : ∀ p, GetPredicate s = some p →
      GetDataNodes (reset s3) = (GetAll s ds).filter p.CheckNode := by
    intro p hpp
    have hpp' : s.m_NodePredicate = some p := hpp
    rw [hl, hpp']
    rfl
  have hB : GetPredicate s = none → GetDataNodes (reset s3) = GetAll s ds := by
    intro hpp
    have hpp' : s.m_NodePredicate = none := hpp
    rw [hl, hpp']
    rfl
  refine ⟨hc.1.trans h3, hc.2.1.trans hp, hA, hB, ?_⟩
  intro n hn'
  cases hq : GetPredicate s with
  | none =>
    rw [hB hq] at hn'
    exact hn'
  | some p =>
    rw [hA p hq] at hn'
    exact (List.mem_filter.mp hn').1

/-! ## The iterator loops -/

/-- Before the first occurrence of `n` no row holds `n`. -/
theorem before_indexOf (l : List DataNode) (n : DataNode) (j : Nat)
    (hj : j < l.indexOf n) : l[j]? ≠ some n := by
  induction l generalizing j with
  | nil => simp
  | cons a rest ih =>
    by_cases h : a = n
    · rw [List.indexOf_cons_eq _ h] at hj
      omega
    · rw [List.indexOf_cons_ne _ h] at hj
      cases j with
      | zero =>
        simp only [List.getElem?_cons_zero, ne_eq, Option.some.injEq]
        exact h
      | succ k =>
        simp only [List.getElem?_cons_succ]
        exact ih k (by omega)

/-- At the first occurrence of `n` the row holds `n`. -/
theorem at_indexOf (l : List DataNode) (n : DataNode) (h : n ∈ l) :
    l[l.indexOf n]? = some n := by
  have hlt : l.indexOf n < l.length := List.indexOf_lt_length.mpr h
  rw [List.getElem?_eq_getElem hlt]
  exact congrArg some (List.indexOf_get hlt)

/-- The loop of `getIndex` stops at the first row holding `node`. -/
theorem getIndex_loop_spec (node : DataNode) (l : List (DataNode × Nat)) (row : Int) :
    getIndex.loop node l row =
      if node ∈ l.map (fun e => e.1)
      then some (row + ((l.map (fun e => e.1)).indexOf node : Nat)) else none := by
  induction l generalizing row with
  | nil => simp [getIndex.loop]
  | cons e rest ih =>
    unfold getIndex.loop
    by_cases h : e.1 = node
    · simp [h]
    · have h' : ¬ node = e.1 := fun x => h x.symm
      rw [if_neg h, ih]
      simp only [List.map_cons, List.mem_cons, h', false_or, List.indexOf_cons_ne _ h]
      by_cases hm : node ∈ rest.map (fun e => e.1)
      · rw [if_pos hm, if_pos hm]
        congr 1
        push_cast
        omega
      · rw [if_neg hm, if_neg hm]

/-- The loop of `OnDataStorageNodeRemoved` is the loop of `getIndex`. -/
theorem OnDataStorageNodeRemoved_loop_eq (node : DataNode) (l : List (DataNode × Nat))
    (row : Int) :
    OnDataStorageNodeRemoved.loop node l row = getIndex.loop node l row := by
  induction l generalizing row with
  | nil => rfl
  | cons e rest ih =>
    unfold OnDataStorageNodeRemoved.loop getIndex.loop
    rw [ih]

/-- The loop of `RemoveNodeFromInternalList` finds nothing when no entry holds
`node`. -/
theorem RemoveNode_loop_none (node : DataNode) (l : List (DataNode × Nat))
    (h : node ∉ l.map (fun e => e.1)) : RemoveNodeFromInternalList.loop node l = none := by
  induction l with
  | nil => rfl
  | cons e rest ih =>
    simp only [List.map_cons, List.mem_cons, not_or] at h
    unfold RemoveNodeFromInternalList.loop
    rw [if_neg (fun x => h.1 x.symm), ih h.2]

/-- The loop of `RemoveNodeFromInternalList` erases the first entry holding
`node` and hands back the tag stored in it. -/
theorem RemoveNode_loop_some (node : DataNode) (l : List (DataNode × Nat))
    (h : node ∈ l.map (fun e => e.1)) :
    ∃ tag, RemoveNodeFromInternalList.loop node l =
        some (tag, l.eraseIdx ((l.map (fun e => e.1)).indexOf node)) ∧
      l[(l.map (fun e => e.1)).indexOf node]? = some (node, tag) := by
  induction l with
  | nil => simp at h
  | cons e rest ih =>
    unfold RemoveNodeFromInternalList.loop
    by_cases he : e.1 = node
    · refine ⟨e.2, ?_, ?_⟩
      · rw [if_pos he]
        simp [List.indexOf_cons_eq _ he]
      · simp only [List.map_cons, List.indexOf_cons_eq _ he, List.getElem?_cons_zero]
        rw [← he]
    · have hm : node ∈ rest.map (fun e => e.1) := by
        simp only [List.map_cons, List.mem_cons] at h
        rcases h with h | h
        · exact absurd h.symm he
        · exact h
      obtain ⟨tag, h1, h2⟩ := ih hm
      refine ⟨tag, ?_, ?_⟩
      · rw [if_neg he, h1]
        simp [List.indexOf_cons_ne _ he]
      · simp only [List.map_cons, List.indexOf_cons_ne _ he, List.getElem?_cons_succ]
        exact h2

/-- Reading back the index of a row below `rowCount` gives the node stored in
that row. -/
theorem getNode_index (s : State) (i : Nat) (hi : i < s.m_NodesAndObserverTags.length) :
    getNode s (index s i) = Except.ok ((GetDataNodes s)[i]?) := by
  have h1 : hasIndex s (i : Int) 0 = true := by
    unfold hasIndex rowCount
    have : ¬ ((i : Int) < 0 ∨ (0 : Int) < 0) := by omega
    rw [if_neg this]
    simp
    exact hi
  unfold index
  rw [if_pos h1]
  unfold getNode QModelIndex.isValid
  simp only [GetDataNodes, List.getElem?_map, Int.toNat_natCast]
  rw [List.getElem?_eq_getElem hi]
  simp

/-- Erasing a row commutes with taking the node of every entry. -/
theorem map_fst_eraseIdx (l : List (DataNode × Nat)) (i : Nat) :
    (l.eraseIdx i).map (fun e => e.1) = (l.map (fun e => e.1)).eraseIdx i := by
  induction l generalizing i with
  | nil => simp
  | cons a r ih => cases i <;> simp [ih]

/-- A row below `rowCount` has a valid index carrying that row. -/
theorem index_of_lt (s : State) (i : Nat) (hi : i < s.m_NodesAndObserverTags.length) :
    index s i = ⟨i, 0, true⟩ := by
  have h1 : hasIndex s (i : Int) 0 = true := by
    unfold hasIndex rowCount
    have : ¬ ((i : Int) < 0 ∨ (0 : Int) < 0) := by omega
    rw [if_neg this]
    simp
    exact hi
  unfold index
  rw [if_pos h1]

/-- The index `getIndex` returns for a listed node: the first row holding it. -/
theorem getIndex_of_mem (s : State) (n : DataNode) (h : n ∈ GetDataNodes s) :
    getIndex s n = ⟨((GetDataNodes s).indexOf n : Nat), 0, true⟩ := by
  have hlt : (GetDataNodes s).indexOf n < s.m_NodesAndObserverTags.length := by
    have := List.indexOf_lt_length.mpr h
    simpa [GetDataNodes] using this
  have h' : n ∈ s.m_NodesAndObserverTags.map (fun e => e.1) := h
  unfold getIndex
  rw [getIndex_loop_spec, if_pos h']
  simp only [zero_add]
  exact index_of_lt s _ hlt

/-- The index `getIndex` returns for a node that is not listed. -/
theorem getIndex_of_not_mem (s : State) (n : DataNode) (h : n ∉ GetDataNodes s) :
    getIndex s n = QModelIndex.invalid := by
  have h' : n ∉ s.m_NodesAndObserverTags.map (fun e => e.1) := h
  unfold getIndex
  rw [getIndex_loop_spec, if_neg h']

/-! ## Reading the model: `getIndex`, `getNode`, `rowCount`, `GetDataNodes` -/

/-- C10: `getIndex` and `getNode` agree on every state.  A listed node gets a
valid index whose row is the smallest row holding it, and `getNode` of that
index is the node; a node that is not listed gets the invalid index, whose
`getNode` is null; and for every row below `rowCount`, `getNode (index row)`
is the element of `GetDataNodes` in that row, the length of `GetDataNodes`
being `rowCount`. -/
theorem getIndex_getNode_consistent (s : State) :
    (∀ n, n ∈ GetDataNodes s →
      (getIndex s n).isValid = true ∧
      (getIndex s n).r = ((GetDataNodes s).indexOf n : Nat) ∧
      (GetDataNodes s)[(GetDataNodes s).indexOf n]? = some n ∧
      (∀ j, j < (GetDataNodes s).indexOf n → (GetDataNodes s)[j]? ≠ some n) ∧
      getNode s (getIndex s n) = Except.ok (some n)) ∧
    (∀ n, n ∉ GetDataNodes s → getIndex s n = QModelIndex.invalid) ∧
    getNode s QModelIndex.invalid = Except.ok none ∧
    (∀ i : Nat, (i : Int) < rowCount s →
      (index s i).isValid = true ∧
      (∃ n, (GetDataNodes s)[i]? = some n ∧ getNode s (index s i) = Except.ok (some n))) ∧
    ((GetDataNodes s).length : Int) = rowCount s := by
  refine ⟨?_, getIndex_of_not_mem s, rfl, ?_, ?_⟩
  · intro n h
    have hlt : (GetDataNodes s).indexOf n < s.m_NodesAndObserverTags.length := by
      have := List.indexOf_lt_length.mpr h
      simpa [GetDataNodes] using this
    have hidx := getIndex_of_mem s n h
    refine ⟨?_, ?_, at_indexOf _ n h, before_indexOf _ n, ?_⟩
    · rw [hidx]
      simp [QModelIndex.isValid]
    · rw [hidx]
    · rw [hidx, ← index_of_lt s _ hlt, getNode_index s _ hlt, at_indexOf _ n h]
  · intro i hi
    have hlt : i < s.m_NodesAndObserverTags.length := by
      unfold rowCount at hi
      exact_mod_cast hi
    refine ⟨?_, ?_⟩
    · rw [index_of_lt s i hlt]
      simp [QModelIndex.isValid]
    · have hlt' : i < (GetDataNodes s).length := by
        simpa [GetDataNodes] using hlt
      refine ⟨(GetDataNodes s)[i], List.getElem?_eq_getElem hlt', ?_⟩
      rw [getNode_index s i hlt, List.getElem?_eq_getElem hlt']
  · simp [GetDataNodes, rowCount]

/-! ## The event handlers with the guard clear -/

/-- C4: with a data storage set and the guard clear, `OnDataStorageNodeAdded n`
appends `n` as the last row when the predicate is null or accepts `n`: the node
list is the old list followed by `n`, the row announced by `beginInsertRows`
is the old `rowCount`, and that is the row in which `n` is stored.  When the
predicate rejects `n`, the node list is unchanged and nothing is announced. -/
theorem OnDataStorageNodeAdded_appends (s : State) (ds : DataStorage) (n : DataNode)
    (hds : GetDataStorage s = some ds) (hb : s.m_BlockEvents = false) :
    ((∀ p, GetPredicate s = some p → p.CheckNode n = true) →
      GetDataNodes (OnDataStorageNodeAdded s n) = GetDataNodes s ++ [n] ∧
      (OnDataStorageNodeAdded s n).emitted =
        s.emitted ++ [Signal.beginInsertRows (rowCount s) (rowCount s), Signal.endInsertRows] ∧
      (GetDataNodes (OnDataStorageNodeAdded s n))[(GetDataNodes s).length]? = some n ∧
      getNode (OnDataStorageNodeAdded s n)
        (index (OnDataStorageNodeAdded s n) (rowCount s)) = Except.ok (some n)) ∧
    ((∃ p, GetPredicate s = some p ∧ p.CheckNode n = false) →
      GetDataNodes (OnDataStorageNodeAdded s n) = GetDataNodes s ∧
      (OnDataStorageNodeAdded s n).emitted = s.emitted) := by
  have hds' : s.m_DataStorage = some ds := hds
  constructor
  · intro hacc
    have hadd : (match s.m_NodePredicate with
        | some pred => if !pred.CheckNode n then false else true
        | none => true) = true := by
      cases hp : s.m_NodePredicate with
      | none => rfl
      | some p =>
        have := hacc p hp
        simp [this]
    have hstate : OnDataStorageNodeAdded s n =
        { AddNodeToInternalList
            { s with m_BlockEvents := true,
                     emitted := s.emitted ++
                       [Signal.beginInsertRows (rowCount s) (rowCount s)] } n with
          emitted := (AddNodeToInternalList
            { s with m_BlockEvents := true,
                     emitted := s.emitted ++
                       [Signal.beginInsertRows (rowCount s) (rowCount s)] } n).emitted ++
              [Signal.endInsertRows],
          m_BlockEvents := false } := by
      unfold OnDataStorageNodeAdded
      simp only [hb, Bool.not_false, if_true]
      rw [hadd]
      rfl
    obtain ⟨hc, hl⟩ := AddNodeToInternalList_spec
      { s with m_BlockEvents := true,
               emitted := s.emitted ++ [Signal.beginInsertRows (rowCount s) (rowCount s)] }
      ds n hds'
    have hnodes : GetDataNodes (OnDataStorageNodeAdded s n) = GetDataNodes s ++ [n] := by
      rw [hstate]
      simp only [GetDataNodes, hl, List.map_append, List.map_cons, List.map_nil]
    have hlen : (GetDataNodes s).length = s.m_NodesAndObserverTags.length := by
      simp [GetDataNodes]
    have hlt : s.m_NodesAndObserverTags.length <
        (OnDataStorageNodeAdded s n).m_NodesAndObserverTags.length := by
      have := congrArg List.length hnodes
      simp [GetDataNodes] at this
      omega
    refine ⟨hnodes, ?_, ?_, ?_⟩
    · rw [hstate]
      simp only [hc.2.2.2.1, List.append_assoc, List.singleton_append]
    · rw [hnodes]
      exact List.getElem?_concat_length _ _
    · have := getNode_index (OnDataStorageNodeAdded s n) s.m_NodesAndObserverTags.length hlt
      unfold rowCount
      rw [this, hnodes, ← hlen]
      exact congrArg Except.ok (List.getElem?_concat_length _ _)
  · rintro ⟨p, hp, hrej⟩
    have hp' : s.m_NodePredicate = some p := hp
    have hstate : OnDataStorageNodeAdded s n = s := by
      unfold OnDataStorageNodeAdded
      simp only [hb, Bool.not_false, if_true, hp', hrej, Bool.not_false]
      cases s
      simp_all
    rw [hstate]
    exact ⟨rfl, rfl⟩

/-- C5: with the guard clear, `OnDataStorageNodeRemoved n` removes exactly one
entry when `n` is listed, namely the first occurrence of `n`; the row announced
by `beginRemoveRows` is the row of that entry and the other entries keep their
order.  When `n` is not listed, the list is unchanged and nothing is
announced. -/
theorem OnDataStorageNodeRemoved_removes_first (s : State) (n : DataNode)
    (hb : s.m_BlockEvents = false) :
    (n ∈ GetDataNodes s →
      GetDataNodes (OnDataStorageNodeRemoved s n) =
        (GetDataNodes s).eraseIdx ((GetDataNodes s).indexOf n) ∧
      (GetDataNodes (OnDataStorageNodeRemoved s n)).length + 1 = (GetDataNodes s).length ∧
      (GetDataNodes s)[(GetDataNodes s).indexOf n]? = some n ∧
      (∀ j, j < (GetDataNodes s).indexOf n → (GetDataNodes s)[j]? ≠ some n) ∧
      (OnDataStorageNodeRemoved s n).emitted =
        s.emitted ++ [Signal.beginRemoveRows ((GetDataNodes s).indexOf n : Nat)
                        ((GetDataNodes s).indexOf n : Nat),
                      Signal.endRemoveRows]) ∧
    (n ∉ GetDataNodes s →
      GetDataNodes (OnDataStorageNodeRemoved s n) = GetDataNodes s ∧
      (OnDataStorageNodeRemoved s n).emitted = s.emitted) := by
  constructor
  · intro h
    have h' : n ∈ s.m_NodesAndObserverTags.map (fun e => e.1) := h
    obtain ⟨tag, hloop, -⟩ := RemoveNode_loop_some n s.m_NodesAndObserverTags h'
    have hlt : (GetDataNodes s).indexOf n < (GetDataNodes s).length :=
      List.indexOf_lt_length.mpr h
    have hnodes : GetDataNodes (OnDataStorageNodeRemoved s n) =
        (GetDataNodes s).eraseIdx ((GetDataNodes s).indexOf n) := by
      unfold OnDataStorageNodeRemoved
      simp only [hb, Bool.not_false, if_true]
      rw [OnDataStorageNodeRemoved_loop_eq, getIndex_loop_spec, if_pos h']
      simp only [RemoveNodeFromInternalList, hloop, GetDataNodes]
      exact map_fst_eraseIdx _ _
    have hem : (OnDataStorageNodeRemoved s n).emitted =
        s.emitted ++ [Signal.beginRemoveRows ((GetDataNodes s).indexOf n : Nat)
                        ((GetDataNodes s).indexOf n : Nat),
                      Signal.endRemoveRows] := by
      unfold OnDataStorageNodeRemoved
      simp only [hb, Bool.not_false, if_true]
      rw [OnDataStorageNodeRemoved_loop_eq, getIndex_loop_spec, if_pos h']
      simp only [RemoveNodeFromInternalList, hloop, RemoveObserver, GetDataNodes, zero_add,
        List.append_assoc, List.singleton_append]
    refine ⟨hnodes, ?_, at_indexOf _ n h, before_indexOf _ n, hem⟩
    rw [hnodes]
    exact List.length_eraseIdx_add_one hlt
  · intro h
    have h' : n ∉ s.m_NodesAndObserverTags.map (fun e => e.1) := h
    constructor
    · unfold OnDataStorageNodeRemoved
      simp only [hb, Bool.not_false, if_true]
      rw [OnDataStorageNodeRemoved_loop_eq, getIndex_loop_spec, if_neg h']
      rfl
    · unfold OnDataStorageNodeRemoved
      simp only [hb, Bool.not_false, if_true]
      rw [OnDataStorageNodeRemoved_loop_eq, getIndex_loop_spec, if_neg h']

/-- C9: with the guard clear, `OnDataNodeModified` emits `dataChanged` for
exactly one row, the first row holding the caller, when the caller is a listed
data node; it emits nothing when the caller is no data node or is a data node
that is not listed; the node list is unchanged in every case. -/
theorem OnDataNodeModified_announces_first_row (s : State) (caller : Option Object)
    (hb : s.m_BlockEvents = false) :
    GetDataNodes (OnDataNodeModified s caller) = GetDataNodes s ∧
    (∀ n, caller = some (Object.node n) → n ∈ GetDataNodes s →
      (OnDataNodeModified s caller).emitted =
        s.emitted ++ [Signal.dataChanged ⟨((GetDataNodes s).indexOf n : Nat), 0, true⟩
                        ⟨((GetDataNodes s).indexOf n : Nat), 0, true⟩] ∧
      (GetDataNodes s)[(GetDataNodes s).indexOf n]? = some n ∧
      (∀ j, j < (GetDataNodes s).indexOf n → (GetDataNodes s)[j]? ≠ some n)) ∧
    (∀ n, caller = some (Object.node n) → n ∉ GetDataNodes s →
      (OnDataNodeModified s caller).emitted = s.emitted) ∧
    (dynamic_cast_DataNode caller = none →
      (OnDataNodeModified s caller).emitted = s.emitted) := by
  refine ⟨?_, ?_, ?_, ?_⟩
  · unfold OnDataNodeModified
    simp only [hb, Bool.false_eq_true, if_false]
    cases dynamic_cast_DataNode caller with
    | none => rfl
    | some n =>
      simp only
      split <;> rfl
  · intro n hc h
    subst hc
    refine ⟨?_, at_indexOf _ n h, before_indexOf _ n⟩
    unfold OnDataNodeModified
    simp only [hb, Bool.false_eq_true, if_false, dynamic_cast_DataNode]
    rw [getIndex_of_mem s n h]
    simp [QModelIndex.isValid]
  · intro n hc h
    subst hc
    unfold OnDataNodeModified
    simp only [hb, Bool.false_eq_true, if_false, dynamic_cast_DataNode]
    rw [getIndex_of_not_mem s n h]
    simp [QModelIndex.isValid, QModelIndex.invalid]
  · intro hc
    unfold OnDataNodeModified
    simp only [hb, Bool.false_eq_true, if_false, hc]

/-! ## The event handlers with the guard set -/

/-- C6: while `m_BlockEvents` is set, each of `OnDataStorageNodeAdded`,
`OnDataStorageNodeRemoved`, `OnDataNodeModified` and `OnDataStorageDeleted`
leaves the node list and the data storage pointer unchanged and announces
nothing to Qt: no row insertion, no row removal, no `dataChanged`. -/
theorem blocked_events_are_ignored (s : State) (node : DataNode) (caller : Option Object)
    (hb : s.m_BlockEvents = true) :
    ((OnDataStorageNodeAdded s node).m_NodesAndObserverTags = s.m_NodesAndObserverTags ∧
      GetDataNodes (OnDataStorageNodeAdded s node) = GetDataNodes s ∧
      GetDataStorage (OnDataStorageNodeAdded s node) = GetDataStorage s ∧
      (OnDataStorageNodeAdded s node).emitted = s.emitted) ∧
    ((OnDataStorageNodeRemoved s node).m_NodesAndObserverTags = s.m_NodesAndObserverTags ∧
      GetDataNodes (OnDataStorageNodeRemoved s node) = GetDataNodes s ∧
      GetDataStorage (OnDataStorageNodeRemoved s node) = GetDataStorage s ∧
      (OnDataStorageNodeRemoved s node).emitted = s.emitted) ∧
    ((OnDataNodeModified s caller).m_NodesAndObserverTags = s.m_NodesAndObserverTags ∧
      GetDataNodes (OnDataNodeModified s caller) = GetDataNodes s ∧
      GetDataStorage (OnDataNodeModified s caller) = GetDataStorage s ∧
      (OnDataNodeModified s caller).emitted = s.emitted) ∧
    ((OnDataStorageDeleted s caller).m_NodesAndObserverTags = s.m_NodesAndObserverTags ∧
      GetDataNodes (OnDataStorageDeleted s caller) = GetDataNodes s ∧
      GetDataStorage (OnDataStorageDeleted s caller) = GetDataStorage s ∧
      (OnDataStorageDeleted s caller).emitted = s.emitted) := by
  have h1 : OnDataStorageNodeAdded s node = s := by
    unfold OnDataStorageNodeAdded
    simp [hb]
  have h2 : OnDataStorageNodeRemoved s node = { s with m_BlockEvents := false } := by
    unfold OnDataStorageNodeRemoved
    simp [hb]
  have h3 : OnDataNodeModified s caller = s := by
    unfold OnDataNodeModified
    simp [hb]
  have h4 : OnDataStorageDeleted s caller = s := by
    unfold OnDataStorageDeleted
    simp [hb]
  rw [h1, h2, h3, h4]
  exact ⟨⟨rfl, rfl, rfl, rfl⟩, ⟨rfl, rfl, rfl, rfl⟩, ⟨rfl, rfl, rfl, rfl⟩, ⟨rfl, rfl, rfl, rfl⟩⟩

/-! ## The statements above at the concrete world -/

/-- C1 at `exampleModel`: setting `oddNodes` leaves the odd nodes of storage 1. -/
theorem SetPredicate_rebuilds_witness :
    GetDataStorage exampleModel = some 1 ∧
    GetDataNodes (SetPredicate exampleModel (some oddNodes)) = [7, 9] :=
  ⟨by decide,
   ((SetPredicate_rebuilds exampleModel 1 (some oddNodes) (by decide)).2.1 oddNodes rfl).trans
     (by decide)⟩

/-- C2 at `exampleModel`: switching to storage 2 leaves exactly its node. -/
theorem SetDataStorage_rebuilds_witness :
    GetDataStorage exampleModel ≠ some 2 ∧
    GetDataStorage (SetDataStorage exampleModel (some 2)) = some 2 ∧
    GetDataNodes (SetDataStorage exampleModel (some 2)) = [20] :=
  ⟨by decide,
   (SetDataStorage_rebuilds exampleModel 2 (by decide)).1,
   ((SetDataStorage_rebuilds exampleModel 2 (by decide)).2.2.2.1 (by rfl)).trans (by decide)⟩

/-- C4 at `exampleModel`: node 8 is appended as row 3. -/
theorem OnDataStorageNodeAdded_appends_witness :
    (GetDataStorage exampleModel = some 1 ∧ exampleModel.m_BlockEvents = false) ∧
    GetDataNodes (OnDataStorageNodeAdded exampleModel 8) = [7, 8, 9, 8] ∧
    (OnDataStorageNodeAdded exampleModel 8).emitted =
      exampleModel.emitted ++ [Signal.beginInsertRows 3 3, Signal.endInsertRows] := by
  have hacc : ∀ p, GetPredicate exampleModel = some p → p.CheckNode 8 = true := by
    intro p hp
    have hnone : (none : Option NodePredicateBase) = some p := hp
    cases hnone
  have h := (OnDataStorageNodeAdded_appends exampleModel 1 8 (by decide) (by decide)).1 hacc
  exact ⟨⟨by decide, by decide⟩, h.1.trans (by decide), h.2.1.trans (by decide)⟩

/-- C5 at `exampleModel`: removing node 8 erases row 1 and announces it. -/
theorem OnDataStorageNodeRemoved_removes_first_witness :
    exampleModel.m_BlockEvents = false ∧
    GetDataNodes (OnDataStorageNodeRemoved exampleModel 8) = [7, 9] ∧
    (OnDataStorageNodeRemoved exampleModel 8).emitted =
      exampleModel.emitted ++ [Signal.beginRemoveRows 1 1, Signal.endRemoveRows] := by
  have h := (OnDataStorageNodeRemoved_removes_first exampleModel 8 (by decide)).1 (by decide)
  exact ⟨by decide, h.1.trans (by decide), h.2.2.2.2.trans (by decide)⟩

/-- C9 at `exampleModel`: a modification of node 9 is announced for row 2. -/
theorem OnDataNodeModified_announces_first_row_witness :
    exampleModel.m_BlockEvents = false ∧
    (OnDataNodeModified exampleModel (some (Object.node 9))).emitted =
      exampleModel.emitted ++ [Signal.dataChanged ⟨2, 0, true⟩ ⟨2, 0, true⟩] := by
  have h := (OnDataNodeModified_announces_first_row exampleModel (some (Object.node 9))
    (by decide)).2.1 9 rfl (by decide)
  exact ⟨by decide, h.1.trans (by decide)⟩

/-- C6 at `exampleBlocked`: a removal of node 8 arriving under the guard
changes neither the list nor the announcements. -/
theorem blocked_events_are_ignored_witness :
    exampleBlocked.m_BlockEvents = true ∧
    GetDataNodes (OnDataStorageNodeRemoved exampleBlocked 8) = [7, 8, 9] ∧
    (OnDataStorageNodeRemoved exampleBlocked 8).emitted = exampleBlocked.emitted := by
  have h := (blocked_events_are_ignored exampleBlocked 8 none (by decide)).2.1
  exact ⟨by decide, h.2.1.trans (by decide), h.2.2.2⟩

/-- C10 at `exampleFiltered`: node 9 sits in row 1 and is read back from it. -/
theorem getIndex_getNode_consistent_witness :
    getIndex exampleFiltered 9 = ⟨1, 0, true⟩ ∧
    getNode exampleFiltered (getIndex exampleFiltered 9) = Except.ok (some 9) := by
  have h := (getIndex_getNode_consistent exampleFiltered).1 9 (by decide)
  exact ⟨by decide, h.2.2.2.2⟩

/-! ## Where the code departs from its own documentation -/

/-- C3: `OnDataStorageDeleted` on `exampleModel`, guard clear, sets the data
storage to null but leaves the three rows in place, although the source
announces `set data storage to nullptr -> empty model`. -/
theorem OnDataStorageDeleted_keeps_rows :
    exampleModel.m_BlockEvents = false ∧
    GetDataStorage exampleModel = some 1 ∧
    GetDataStorage (OnDataStorageDeleted exampleModel (some (Object.storage 1))) = none ∧
    rowCount (OnDataStorageDeleted exampleModel (some (Object.storage 1))) = 3 ∧
    GetDataNodes (OnDataStorageDeleted exampleModel (some (Object.storage 1))) = [7, 8, 9] := by
  decide

/-- C7: `OnDataStorageNodeRemoved` entered with the guard set returns with the
guard released, whereas `OnDataStorageNodeAdded` returns with it still set. -/
theorem OnDataStorageNodeRemoved_releases_guard :
    exampleBlocked.m_BlockEvents = true ∧
    (OnDataStorageNodeRemoved exampleBlocked 8).m_BlockEvents = false ∧
    (OnDataStorageNodeAdded exampleBlocked 8).m_BlockEvents = true := by
  decide

/-- C8: in `exampleModel` the tag 2 stored beside node 8 belongs to an observer
registered on data storage 1, node 8 itself carrying no observer; after
`RemoveNodeFromInternalList 8`, and after `ClearInternalNodeList`, the entry
has left the list and the observer is still registered on the data storage. -/
theorem modified_observer_outlives_entry :
    (8, 2) ∈ exampleModel.m_NodesAndObserverTags ∧
    exampleModel.m_Observers (Object.node 8) = [] ∧
    (⟨2, EventObject.ModifiedEvent, Callback.OnDataNodeModified⟩ : Observer) ∈
      exampleModel.m_Observers (Object.storage 1) ∧
    8 ∉ GetDataNodes (RemoveNodeFromInternalList exampleModel 8) ∧
    (⟨2, EventObject.ModifiedEvent, Callback.OnDataNodeModified⟩ : Observer) ∈
      (RemoveNodeFromInternalList exampleModel 8).m_Observers (Object.storage 1) ∧
    GetDataNodes (ClearInternalNodeList exampleModel) = [] ∧
    (⟨2, EventObject.ModifiedEvent, Callback.OnDataNodeModified⟩ : Observer) ∈
      (ClearInternalNodeList exampleModel).m_Observers (Object.storage 1) := by
  decide

end QmitkDataStorageListModel
